import Mathlib

/-!
# Verification of the momo-collector payment status reconciliation engine

Shallow embedding of the core of the `momo-collector` repository:
the transaction ledger (`offerings` table), the daily aggregates
(`daily_summaries` table), the retry queue (`pending_queue` table), the
status transition engine (`updateStatusTxn` / `getStatusDelta` in
`routes/callbacks.js` and `routes/offerings.js`), the creation flow
(`createOfferingTxn`, `upsertDailySummary`), the retry sweep
(`getPendingItems`, `processPendingQueue` in `services/retryWorker.js`)
and the three reconciliation drivers (webhook, poller, retry sweep).

SQL tables are modelled as Lean lists of rows; `UPDATE ... WHERE`
becomes a `List.map` touching exactly the rows matched by the WHERE
clause, `SELECT ... WHERE ... ?` single-row lookups become `List.find?`,
`INSERT` appends, and `DELETE ... WHERE` becomes `List.filter`.
Monetary amounts (SQLite REAL) are modelled as exact rationals; time
(SQLite DATETIME) as seconds since an epoch (`Nat`), with the date part
of a timestamp carried separately as a string, matching
`offering.created_at.split(' ')[0]`.
-/

/-- Transaction lifecycle status: the `status` column of `offerings`.
The routes validate incoming statuses against
`['SUCCESSFUL', 'FAILED', 'PENDING']`. -/
inductive Status where
  | PENDING
  | SUCCESSFUL
  | FAILED
deriving DecidableEq, Repr

/-- A row of the `offerings` table (the fields the engine reads/writes).
`created_date` is the date part of `created_at`
(`offering.created_at.split(' ')[0]`), which identifies the daily
aggregate bucket together with `category_code`. -/
structure Offering where
  reference_number : String
  momo_reference_id : String
  category_code : String
  amount : Rat
  phone_number : String
  payer_message : Option String
  status : Status
  financial_txn_id : Option String
  created_date : String
deriving DecidableEq, Repr

/-- A row of the `daily_summaries` table, keyed by
`(summary_date, category_code)` (UNIQUE constraint). -/
structure DailySummary where
  summary_date : String
  category_code : String
  total_count : Nat
  total_amount : Rat
  success_count : Int
  failed_count : Int
deriving DecidableEq, Repr

/-- A row of the `pending_queue` table (retry entry). -/
structure QueueEntry where
  id : Nat
  reference_number : String
  momo_reference_id : String
  amount : Rat
  phone_number : String
  payer_message : Option String
  retry_count : Nat
  last_attempt_at : Option Nat
  created_at : Nat
deriving DecidableEq, Repr

/-- The ledger store: the three mutable tables plus the fixed category
catalog (`categories` table, `(code, name)` pairs). -/
structure LedgerState where
  offerings : List Offering
  daily_summaries : List DailySummary
  pending_queue : List QueueEntry
  categories : List (String × String)
deriving DecidableEq, Repr

/-- JavaScript `x || null` applied to an optional string argument:
`undefined`/`null` and the empty string collapse to `null`. -/
def orNull (x : Option String) : Option String :=
  match x with
  | none => none
  | some s => if s = "" then none else some s

/-- `getOfferingByRef` prepared statement:
`SELECT * FROM offerings WHERE reference_number = ?`
(`reference_number` is UNIQUE, so the first match is the row). -/
def getOfferingByRef (st : LedgerState) (referenceNumber : String) : Option Offering :=
  st.offerings.find? (fun o => o.reference_number = referenceNumber)

/-- `getStatusDelta(oldStatus, newStatus)` from `routes/callbacks.js`:
signed deltas for `(success_count, failed_count)` of the daily bucket. -/
def getStatusDelta (oldStatus newStatus : Status) : Int × Int :=
  let successDelta : Int :=
    (if oldStatus = Status.SUCCESSFUL then -1 else 0) +
    (if newStatus = Status.SUCCESSFUL then 1 else 0)
  let failedDelta : Int :=
    (if oldStatus = Status.FAILED then -1 else 0) +
    (if newStatus = Status.FAILED then 1 else 0)
  (successDelta, failedDelta)

/-- `updateOfferingStatus` prepared statement:
`UPDATE offerings SET status = ?, financial_txn_id = ? WHERE reference_number = ?`.
Every row matched by the WHERE clause is rewritten. -/
def updateOfferingStatus (os : List Offering) (newStatus : Status)
    (financialTxnId : Option String) (referenceNumber : String) : List Offering :=
  os.map (fun o =>
    if o.reference_number = referenceNumber then
      { o with status := newStatus, financial_txn_id := financialTxnId }
    else o)

/-- `updateDailySummaryCounters` prepared statement:
`UPDATE daily_summaries SET success_count = success_count + ?, failed_count = failed_count + ?
 WHERE summary_date = ? AND category_code = ?`.
A no-op when no row matches (plain UPDATE, not an upsert). -/
def updateDailySummaryCounters (ss : List DailySummary) (successDelta failedDelta : Int)
    (summaryDate categoryCode : String) : List DailySummary :=
  ss.map (fun s =>
    if s.summary_date = summaryDate ∧ s.category_code = categoryCode then
      { s with success_count := s.success_count + successDelta,
               failed_count := s.failed_count + failedDelta }
    else s)

/-- `updateStatusTxn` (`routes/callbacks.js` / `routes/offerings.js`): the
status transition engine, one atomic sqlite transaction.
Returns `none` for NotFound (`if (!offering) return null`), otherwise the
new ledger state together with the `changed` flag and the echoed offering
object of the JS result (`{ ...offering, status, financial_txn_id }`). -/
def updateStatusTxn (st : LedgerState) (referenceNumber : String) (newStatus : Status)
    (financialTxnId : Option String) : Option (LedgerState × Offering × Bool) :=
  match getOfferingByRef st referenceNumber with
  | none => none
  | some offering =>
    if offering.status = newStatus then
      some (st, offering, false)
    else
      let os := updateOfferingStatus st.offerings newStatus (orNull financialTxnId)
        referenceNumber
      let summaryDate := offering.created_date
      let d := getStatusDelta offering.status newStatus
      let ss := updateDailySummaryCounters st.daily_summaries d.1 d.2 summaryDate
        offering.category_code
      some ({ st with offerings := os, daily_summaries := ss },
        { offering with status := newStatus, financial_txn_id := financialTxnId }, true)

/-- `upsertDailySummary` prepared statement (`routes/offerings.js`):
`INSERT INTO daily_summaries (summary_date, category_code, total_count, total_amount)
 VALUES (?, ?, 1, ?) ON CONFLICT(summary_date, category_code)
 DO UPDATE SET total_count = total_count + 1, total_amount = total_amount + excluded.total_amount`. -/
def upsertDailySummary (ss : List DailySummary) (summaryDate categoryCode : String)
    (amount : Rat) : List DailySummary :=
  if ss.any (fun s => s.summary_date = summaryDate ∧ s.category_code = categoryCode) then
    ss.map (fun s =>
      if s.summary_date = summaryDate ∧ s.category_code = categoryCode then
        { s with total_count := s.total_count + 1, total_amount := s.total_amount + amount }
      else s)
  else
    ss ++ [{ summary_date := summaryDate, category_code := categoryCode,
             total_count := 1, total_amount := amount,
             success_count := 0, failed_count := 0 }]

/-- `createOfferingTxn` (`routes/offerings.js`): inserts the offering row
in status `'PENDING'` and upserts the daily summary, one atomic sqlite
transaction. The generated reference number, the generated MoMo
correlation id and today's date string (`getTodayDateString()`) are
passed in as parameters of the model. -/
def createOfferingTxn (st : LedgerState) (refNumber momoRefId todayStr : String)
    (category : String) (amount : Rat) (phone : String) (note : Option String) :
    LedgerState :=
  { st with
    offerings := st.offerings ++
      [{ reference_number := refNumber, momo_reference_id := momoRefId,
         category_code := category, amount := amount, phone_number := phone,
         payer_message := orNull note,
         status := Status.PENDING, financial_txn_id := none,
         created_date := todayStr }],
    daily_summaries := upsertDailySummary st.daily_summaries todayStr category amount }

/-! ## Retry scheduler (`services/retryWorker.js`) -/

/-- `MAX_RETRIES = 5`: give up after 5 attempts. -/
def MAX_RETRIES : Nat := 5

/-- `COOLDOWN_MINUTES = 2`: wait 2 minutes between retries per item. -/
def COOLDOWN_MINUTES : Nat := 2

/-- `BATCH_SIZE = 10`: process up to 10 items per tick. -/
def BATCH_SIZE : Nat := 10

/-- The WHERE clause of `getPendingItems`:
`retry_count < ? AND (last_attempt_at IS NULL OR last_attempt_at < datetime('now', '-2 minutes'))`
with `?` bound to `MAX_RETRIES`. Time is seconds since an epoch, so
`last_attempt_at < now - 120s` is rendered without truncated
subtraction as `last_attempt_at + 120 < now`. -/
def isEligibleForRetry (now : Nat) (e : QueueEntry) : Bool :=
  decide (e.retry_count < MAX_RETRIES) &&
    (match e.last_attempt_at with
     | none => true
     | some t => decide (t + COOLDOWN_MINUTES * 60 < now))

/-- `getPendingItems` prepared statement: select the eligible queue rows,
`ORDER BY created_at ASC`, `LIMIT ?` with `?` bound to `BATCH_SIZE`. -/
def getPendingItems (q : List QueueEntry) (now : Nat) : List QueueEntry :=
  ((q.filter (isEligibleForRetry now)).mergeSort
    (fun a b => a.created_at ≤ b.created_at)).take BATCH_SIZE

/-- `deleteQueueItem` prepared statement:
`DELETE FROM pending_queue WHERE id = ?`. -/
def deleteQueueItem (q : List QueueEntry) (i : Nat) : List QueueEntry :=
  q.filter (fun e => decide (e.id ≠ i))

/-- `incrementRetry` prepared statement:
`UPDATE pending_queue SET retry_count = retry_count + 1, last_attempt_at = CURRENT_TIMESTAMP
 WHERE id = ?`. -/
def incrementRetry (q : List QueueEntry) (i : Nat) (now : Nat) : List QueueEntry :=
  q.map (fun e =>
    if e.id = i then
      { e with retry_count := e.retry_count + 1, last_attempt_at := some now }
    else e)

/-- The body of the `for` loop of `processPendingQueue` for one item:
`momoService.requestToPay` succeeding (oracle `accepts`) deletes the
queue row; the `catch` branch increments its retry counter. -/
def processItem (accepts : QueueEntry → Bool) (now : Nat) (q : List QueueEntry)
    (item : QueueEntry) : List QueueEntry :=
  if accepts item then deleteQueueItem q item.id
  else incrementRetry q item.id now

/-- The `for (const item of items)` loop of `processPendingQueue`: each
item is processed independently (a failed resubmission is caught, counted
and never aborts the loop). -/
def processItems (accepts : QueueEntry → Bool) (now : Nat) :
    List QueueEntry → List QueueEntry → List QueueEntry
  | [], q => q
  | item :: rest, q => processItems accepts now rest (processItem accepts now q item)

/-- `processPendingQueue` (`services/retryWorker.js`): one tick of the
retry worker. The `items` snapshot is taken once
(`getPendingItems.all(MAX_RETRIES, BATCH_SIZE)`) before the loop.
The external client's accept/reject behaviour is the oracle `accepts`. -/
def processPendingQueue (st : LedgerState) (accepts : QueueEntry → Bool) (now : Nat) :
    LedgerState :=
  { st with pending_queue :=
      processItems accepts now (getPendingItems st.pending_queue now) st.pending_queue }

/-! ## Reconciliation drivers (routes) -/

/-- Result object of `momoService.checkStatus`: the external client's
view `{ status, financialTransactionId }`; either field may be absent. -/
structure MomoStatusResult where
  status : Option Status
  financialTransactionId : Option String
deriving DecidableEq, Repr

/-- The JSON body + HTTP status the webhook route answers with. -/
structure ApiResponse where
  httpStatus : Nat
  success : Bool
  error : Option String
deriving DecidableEq, Repr

/-- Parse a webhook status string against
`validStatuses = ['SUCCESSFUL', 'FAILED', 'PENDING']`; `none` renders
`!validStatuses.includes(status)`. -/
def statusOfString (s : String) : Option Status :=
  if s = "SUCCESSFUL" then some Status.SUCCESSFUL
  else if s = "FAILED" then some Status.FAILED
  else if s = "PENDING" then some Status.PENDING
  else none

/-- `POST /api/callbacks/momo` (`routes/callbacks.js`): the webhook
driver. Body fields arrive as optional strings; `!externalId || !status`
(JS falsiness, hence `orNull`) yields 400, an unrecognized status yields
400, a `null` result of `updateStatusTxn` yields 404 `'Offering not
found'`, otherwise 200 `{ success: true }`. -/
def momoCallbackRoute (st : LedgerState)
    (externalId status financialTransactionId : Option String) :
    LedgerState × ApiResponse :=
  match orNull externalId, orNull status with
  | some e, some s =>
    match statusOfString s with
    | none => (st, { httpStatus := 400, success := false,
                     error := some ("Invalid status: " ++ s) })
    | some ns =>
      match updateStatusTxn st e ns financialTransactionId with
      | none => (st, { httpStatus := 404, success := false,
                       error := some "Offering not found" })
      | some (st', _, _) => (st', { httpStatus := 200, success := true, error := none })
  | _, _ => (st, { httpStatus := 400, success := false,
                   error := some "Missing externalId or status" })

/-- The JSON body + HTTP status of the poll route. -/
structure PollResponse where
  httpStatus : Nat
  success : Bool
  status : Option Status
  financialTxnId : Option String
  momoError : Option String
deriving DecidableEq, Repr

/-- `GET /api/offerings/:referenceNumber/status` (`routes/offerings.js`):
the poll driver. `ext` is the outcome of the
`momoService.checkStatus(offering.momo_reference_id)` call — an
exception (`Except.error`) or a result object. A terminal local status
answers immediately; a failed external query answers with the stored
status plus `momoError`; a differing successful result goes through
`updateStatusTxn` (its return value is ignored by the route). -/
def pollStatusRoute (st : LedgerState) (referenceNumber : String)
    (ext : Except String MomoStatusResult) : LedgerState × PollResponse :=
  match getOfferingByRef st referenceNumber with
  | none => (st, { httpStatus := 404, success := false, status := none,
                   financialTxnId := none, momoError := none })
  | some offering =>
    if offering.status = Status.SUCCESSFUL ∨ offering.status = Status.FAILED then
      (st, { httpStatus := 200, success := true, status := some offering.status,
             financialTxnId := offering.financial_txn_id, momoError := none })
    else
      match ext with
      | Except.error e =>
        (st, { httpStatus := 200, success := true, status := some offering.status,
               financialTxnId := offering.financial_txn_id, momoError := some e })
      | Except.ok momoStatus =>
        let newStatus := momoStatus.status
        let financialTxnId := orNull momoStatus.financialTransactionId
        let st' :=
          match newStatus with
          | some ns =>
            if ns ≠ offering.status then
              match updateStatusTxn st referenceNumber ns financialTxnId with
              | some (s, _, _) => s
              | none => st
            else st
          | none => st
        (st', { httpStatus := 200, success := true,
                status := some (newStatus.getD offering.status),
                financialTxnId :=
                  match financialTxnId with
                  | some f => some f
                  | none => offering.financial_txn_id,
                momoError := none })

/-- The JSON body + HTTP status of the creation route. -/
structure CreateResponse where
  httpStatus : Nat
  success : Bool
  error : Option String
  referenceNumber : Option String
  status : Option Status
  momoError : Option String
deriving DecidableEq, Repr

/-- `getCategoryByCode` prepared statement:
`SELECT * FROM categories WHERE code = ?`; the catalog is modelled as
`(code, name)` pairs. -/
def getCategoryByCode (st : LedgerState) (code : String) : Option (String × String) :=
  st.categories.find? (fun c => c.1 = code)

/-- `POST /api/offerings` (`routes/offerings.js`): the creation flow.
Validation (`!phone`, `!amount` — note `0` is falsy — NaN/non-positive
amount, unknown category) rejects with 400 before any mutation.
Otherwise `createOfferingTxn` runs; the `momoService.requestToPay`
outcome is the oracle `submit`; its failure enqueues a retry entry
(id `newQueueId`, `created_at` = `now`) and the route still answers
202 `{ success: true, status: 'PENDING' }`. The parsed amount stands in
for `parseFloat(amount)` (`none` = missing or NaN). -/
def createOfferingRoute (st : LedgerState)
    (phone : Option String) (amount : Option Rat) (category : Option String)
    (note : Option String) (refNumber momoRefId todayStr : String)
    (submit : Except String Unit) (newQueueId now : Nat) :
    LedgerState × CreateResponse :=
  match orNull phone with
  | none => (st, { httpStatus := 400, success := false,
                   error := some "Phone number is required", referenceNumber := none,
                   status := none, momoError := none })
  | some ph =>
    match amount with
    | none => (st, { httpStatus := 400, success := false,
                     error := some "Amount is required", referenceNumber := none,
                     status := none, momoError := none })
    | some a =>
      if a = 0 then
        (st, { httpStatus := 400, success := false,
               error := some "Amount is required", referenceNumber := none,
               status := none, momoError := none })
      else if a ≤ 0 then
        (st, { httpStatus := 400, success := false,
               error := some "Amount must be a positive number", referenceNumber := none,
               status := none, momoError := none })
      else
        match orNull category with
        | none => (st, { httpStatus := 400, success := false,
                         error := some "Category is required", referenceNumber := none,
                         status := none, momoError := none })
        | some cat =>
          match getCategoryByCode st cat with
          | none => (st, { httpStatus := 400, success := false,
                           error := some ("Invalid category " ++ cat),
                           referenceNumber := none, status := none, momoError := none })
          | some catRow =>
            let st1 := createOfferingTxn st refNumber momoRefId todayStr cat a ph note
            match submit with
            | Except.ok _ =>
              (st1, { httpStatus := 202, success := true, error := none,
                      referenceNumber := some refNumber, status := some Status.PENDING,
                      momoError := none })
            | Except.error msg =>
              let payerMessage := (orNull note).getD (catRow.2 ++ " Offering")
              let st2 := { st1 with pending_queue := st1.pending_queue ++
                [{ id := newQueueId, reference_number := refNumber,
                   momo_reference_id := momoRefId, amount := a, phone_number := ph,
                   payer_message := some payerMessage, retry_count := 0,
                   last_attempt_at := none, created_at := now }] }
              (st2, { httpStatus := 202, success := true, error := none,
                      referenceNumber := some refNumber, status := some Status.PENDING,
                      momoError := some msg })

example :
    getStatusDelta Status.SUCCESSFUL Status.FAILED = (-1, 1) := by decide

example :
    getStatusDelta Status.PENDING Status.SUCCESSFUL = (1, 0) := by decide

/-! ## Observers and helper lemmas -/

/-- Look up the daily aggregate row of bucket `(d, c)`
(`SELECT * FROM daily_summaries WHERE summary_date = ? AND category_code = ?`). -/
def findSummary (ss : List DailySummary) (d c : String) : Option DailySummary :=
  ss.find? (fun s => s.summary_date = d ∧ s.category_code = c)

theorem find?_map_key {α : Type} (p : α → Bool) (g : α → α) (l : List α)
    (hg : ∀ a, p (g a) = p a) :
    (l.map g).find? p = (l.find? p).map g := by
  rw [List.find?_map]
  have hpg : p ∘ g = p := funext hg
  rw [hpg]

theorem find?_updateOfferingStatus (os : List Offering) (ns : Status)
    (f : Option String) (r : String) (o : Offering)
    (h : os.find? (fun x => x.reference_number = r) = some o) :
    (updateOfferingStatus os ns f r).find? (fun x => x.reference_number = r) =
      some { o with status := ns, financial_txn_id := f } := by
  unfold updateOfferingStatus
  rw [find?_map_key _ _ _ ?hg, h]
  · have hp := List.find?_some h
    simp only [decide_eq_true_eq] at hp
    simp [hp]
  case hg =>
    intro a
    by_cases ha : a.reference_number = r <;> simp [ha]

theorem findSummary_updateCounters (ss : List DailySummary) (sd fd : Int) (d c : String) :
    findSummary (updateDailySummaryCounters ss sd fd d c) d c =
      (findSummary ss d c).map (fun s =>
        { s with success_count := s.success_count + sd,
                 failed_count := s.failed_count + fd }) := by
  unfold findSummary updateDailySummaryCounters
  rw [find?_map_key _ _ _ ?hg]
  · cases h : ss.find? (fun s => s.summary_date = d ∧ s.category_code = c) with
    | none => rfl
    | some s0 =>
      have hp := List.find?_some h
      simp only [decide_eq_true_eq] at hp
      simp [hp]
  case hg =>
    intro a
    by_cases ha : a.summary_date = d ∧ a.category_code = c <;> simp [ha]

theorem updateCounters_cancel (ss : List DailySummary) (s1 f1 s2 f2 : Int) (d c : String)
    (hs : s1 + s2 = 0) (hf : f1 + f2 = 0) :
    updateDailySummaryCounters (updateDailySummaryCounters ss s1 f1 d c) s2 f2 d c = ss := by
  unfold updateDailySummaryCounters
  rw [List.map_map]
  conv_rhs => rw [← List.map_id ss]
  apply List.map_congr_left
  intro s _
  by_cases h : s.summary_date = d ∧ s.category_code = c
  · have h1 : s.success_count + s1 + s2 = s.success_count := by omega
    have h2 : s.failed_count + f1 + f2 = s.failed_count := by omega
    obtain ⟨hd, hc⟩ := h
    subst hd
    subst hc
    simp [h1, h2]
  · simp [Function.comp, h]

/-- NotFound case of the transition engine: unknown reference, no result
object, and (being a pure function of the state) no mutation at all. -/
theorem updateStatusTxn_notFound (st : LedgerState) (ref : String) (ns : Status)
    (f : Option String) (h : getOfferingByRef st ref = none) :
    updateStatusTxn st ref ns f = none := by
  unfold updateStatusTxn
  rw [h]

/-- Idempotent case of the transition engine: current status equals the
requested one, the state is returned untouched with `changed = false`. -/
theorem updateStatusTxn_unchanged (st : LedgerState) (ref : String) (ns : Status)
    (f : Option String) (o : Offering) (h : getOfferingByRef st ref = some o)
    (hs : o.status = ns) :
    updateStatusTxn st ref ns f = some (st, o, false) := by
  unfold updateStatusTxn
  rw [h]
  simp [hs]

/-- Changed case of the transition engine, fully characterized: the
offering row is rewritten and the daily bucket of
`(created_date, category_code)` receives the `getStatusDelta` deltas. -/
theorem updateStatusTxn_changed (st : LedgerState) (ref : String) (ns : Status)
    (f : Option String) (o : Offering) (h : getOfferingByRef st ref = some o)
    (hne : o.status ≠ ns) :
    updateStatusTxn st ref ns f = some
      ({ st with
         offerings := updateOfferingStatus st.offerings ns (orNull f) ref,
         daily_summaries := updateDailySummaryCounters st.daily_summaries
           (getStatusDelta o.status ns).1 (getStatusDelta o.status ns).2
           o.created_date o.category_code },
       { o with status := ns, financial_txn_id := f }, true) := by
  unfold updateStatusTxn
  rw [h]
  simp [hne]

/-! ## C2: transition idempotence -/

/-- C2. Transition idempotence: when the transaction's current status
already equals the requested `newStatus`, `updateStatusTxn` mutates
nothing and reports `changed = false`; consequently a second call with
the same status after any first call reports `changed = false` and
leaves the ledger exactly as the first call left it. -/
theorem transition_idempotent (st : LedgerState) (ref : String) (ns : Status)
    (f f2 : Option String) (o : Offering) (h : getOfferingByRef st ref = some o) :
    (o.status = ns → updateStatusTxn st ref ns f = some (st, o, false)) ∧
    (∀ st1 off c, updateStatusTxn st ref ns f = some (st1, off, c) →
      ∃ off2, updateStatusTxn st1 ref ns f2 = some (st1, off2, false)) := by
  constructor
  · intro hs
    exact updateStatusTxn_unchanged st ref ns f o h hs
  · intro st1 off c hcall
    by_cases hs : o.status = ns
    · rw [updateStatusTxn_unchanged st ref ns f o h hs] at hcall
      simp only [Option.some.injEq, Prod.mk.injEq] at hcall
      obtain ⟨h1, -, -⟩ := hcall
      exact h1 ▸ ⟨o, updateStatusTxn_unchanged st ref ns f2 o h hs⟩
    · rw [updateStatusTxn_changed st ref ns f o h hs] at hcall
      simp only [Option.some.injEq, Prod.mk.injEq] at hcall
      obtain ⟨h1, -, -⟩ := hcall
      subst h1
      have hfind : getOfferingByRef
          { st with
            offerings := updateOfferingStatus st.offerings ns (orNull f) ref,
            daily_summaries := updateDailySummaryCounters st.daily_summaries
              (getStatusDelta o.status ns).1 (getStatusDelta o.status ns).2
              o.created_date o.category_code } ref =
          some { o with status := ns, financial_txn_id := orNull f } :=
        find?_updateOfferingStatus st.offerings ns (orNull f) ref o h
      exact ⟨{ o with status := ns, financial_txn_id := orNull f },
        updateStatusTxn_unchanged _ ref ns f2 _ hfind rfl⟩

/-! ## Concrete fixtures (used to witness the hypothetical theorems) -/

/-- A pending transaction, as right after creation
(the scenario of the spec: `TITHE-2026-0211-001`, 50.00 GHS). -/
def sampleOffering : Offering :=
  { reference_number := "TITHE-2026-0211-001", momo_reference_id := "uuid-0001",
    category_code := "TITHE", amount := 50, phone_number := "0241234567",
    payer_message := none, status := Status.PENDING, financial_txn_id := none,
    created_date := "2026-02-11" }

/-- The matching daily aggregate row after that single creation. -/
def sampleSummary : DailySummary :=
  { summary_date := "2026-02-11", category_code := "TITHE",
    total_count := 1, total_amount := 50, success_count := 0, failed_count := 0 }

/-- Ledger with one pending transaction and its bucket. -/
def sampleState : LedgerState :=
  { offerings := [sampleOffering], daily_summaries := [sampleSummary],
    pending_queue := [], categories := [("TITHE", "Tithes")] }

/-- The same ledger after the transaction settled successfully. -/
def sampleOfferingS : Offering :=
  { sampleOffering with status := Status.SUCCESSFUL, financial_txn_id := some "FT1" }

def sampleSummaryS : DailySummary := { sampleSummary with success_count := 1 }

def sampleStateS : LedgerState :=
  { offerings := [sampleOfferingS], daily_summaries := [sampleSummaryS],
    pending_queue := [], categories := [("TITHE", "Tithes")] }

/-- Witness for the idempotence theorem: repeating the `PENDING` status
on the freshly created sample transaction changes nothing. -/
theorem transition_idempotent_witness :
    updateStatusTxn sampleState "TITHE-2026-0211-001" Status.PENDING none =
      some (sampleState, sampleOffering, false) :=
  (transition_idempotent sampleState "TITHE-2026-0211-001" Status.PENDING none none
    sampleOffering rfl).1 rfl

/-! ## C3: the generic delta rule -/

/-- C3. Generic delta rule: `getStatusDelta` follows the one general
rule (old status decrements its terminal counter, new status increments
its terminal counter) on all nine status pairs — in particular
`SUCCESSFUL → FAILED` gives `(-1, 1)` — and a status-changing transition
applies exactly these deltas to the daily bucket identified by the
transaction's creation date and category. -/
theorem transition_delta_rule (st : LedgerState) (ref : String) (ns : Status)
    (f : Option String) (o : Offering) (h : getOfferingByRef st ref = some o)
    (hne : o.status ≠ ns) :
    (∀ a b : Status, getStatusDelta a b =
       ((if a = Status.SUCCESSFUL then (-1 : Int) else 0) +
          (if b = Status.SUCCESSFUL then (1 : Int) else 0),
        (if a = Status.FAILED then (-1 : Int) else 0) +
          (if b = Status.FAILED then (1 : Int) else 0))) ∧
    getStatusDelta Status.SUCCESSFUL Status.FAILED = (-1, 1) ∧
    ∃ st' off, updateStatusTxn st ref ns f = some (st', off, true) ∧
      findSummary st'.daily_summaries o.created_date o.category_code =
        (findSummary st.daily_summaries o.created_date o.category_code).map
          (fun s => { s with
            success_count := s.success_count + (getStatusDelta o.status ns).1,
            failed_count := s.failed_count + (getStatusDelta o.status ns).2 }) := by
  refine ⟨fun a b => by cases a <;> cases b <;> decide, by decide, _, _,
    updateStatusTxn_changed st ref ns f o h hne, ?_⟩
  exact findSummary_updateCounters st.daily_summaries
    (getStatusDelta o.status ns).1 (getStatusDelta o.status ns).2
    o.created_date o.category_code

/-- Witness for the delta rule theorem: the out-of-order
`SUCCESSFUL → FAILED` webhook scenario on the settled sample ledger. -/
theorem transition_delta_rule_witness :
    getStatusDelta Status.SUCCESSFUL Status.FAILED = (-1, 1) :=
  (transition_delta_rule sampleStateS "TITHE-2026-0211-001" Status.FAILED none
    sampleOfferingS rfl (by decide)).2.1

/-! ## C9: settlement id handling (corrected) -/

/-- C9 counterexample: the claim says a settlement id is assigned only
by transitions to `SUCCESSFUL`, but transitioning the pending sample
transaction to `FAILED` with settlement id `"FT9"` stores `"FT9"` on the
row: `updateOfferingStatus` writes `financial_txn_id = ?` on every
status-changing transition, whatever the new status. -/
theorem settlement_id_counterexample :
    (updateStatusTxn sampleState "TITHE-2026-0211-001" Status.FAILED (some "FT9")).map
      (fun r => (r.1.offerings.map Offering.financial_txn_id,
                 r.1.offerings.map Offering.status)) =
      some ([some "FT9"], [Status.FAILED]) := by
  rfl

/-- C9 amended. Every status-changing transition stores the provided
settlement id (normalized by `|| null`) on the transaction row,
regardless of the new status; only the no-change (idempotent) path
leaves the field untouched. -/
theorem settlement_id_set_on_every_change (st : LedgerState) (ref : String)
    (ns : Status) (f : Option String) (o : Offering)
    (h : getOfferingByRef st ref = some o) (hne : o.status ≠ ns) :
    ∃ st' off, updateStatusTxn st ref ns f = some (st', off, true) ∧
      getOfferingByRef st' ref =
        some { o with status := ns, financial_txn_id := orNull f } :=
  ⟨_, _, updateStatusTxn_changed st ref ns f o h hne,
    find?_updateOfferingStatus st.offerings ns (orNull f) ref o h⟩

/-- Witness for the amended settlement-id theorem at the concrete
`FAILED` transition. -/
theorem settlement_id_set_on_every_change_witness :
    ∃ st' off,
      updateStatusTxn sampleState "TITHE-2026-0211-001" Status.FAILED (some "FT9") =
        some (st', off, true) ∧
      getOfferingByRef st' "TITHE-2026-0211-001" =
        some { sampleOffering with
               status := Status.FAILED,
               financial_txn_id := orNull (some "FT9") } :=
  settlement_id_set_on_every_change sampleState "TITHE-2026-0211-001" Status.FAILED
    (some "FT9") sampleOffering rfl (by decide)

/-! ## C10: round-trip delta neutrality -/

/-- C10. Round-trip neutrality: `getStatusDelta A B` and
`getStatusDelta B A` cancel in both components, so transitioning
`A → B → A` restores the transaction's status to `A` and restores the
daily summary table (hence the bucket's `success_count` and
`failed_count`) exactly to its value before the first call. -/
theorem transition_round_trip (st : LedgerState) (ref : String) (A B : Status)
    (f1 f2 : Option String) (o : Offering) (h : getOfferingByRef st ref = some o)
    (hA : o.status = A) (hne : A ≠ B) :
    (∀ a b : Status, (getStatusDelta a b).1 + (getStatusDelta b a).1 = 0 ∧
                     (getStatusDelta a b).2 + (getStatusDelta b a).2 = 0) ∧
    ∃ st1 o1 st2 o2,
      updateStatusTxn st ref B f1 = some (st1, o1, true) ∧
      updateStatusTxn st1 ref A f2 = some (st2, o2, true) ∧
      (getOfferingByRef st2 ref).map Offering.status = some A ∧
      st2.daily_summaries = st.daily_summaries := by
  have hzero : ∀ a b : Status, (getStatusDelta a b).1 + (getStatusDelta b a).1 = 0 ∧
      (getStatusDelta a b).2 + (getStatusDelta b a).2 = 0 := by
    intro a b
    cases a <;> cases b <;> decide
  refine ⟨hzero, ?_⟩
  subst hA
  have hneB : o.status ≠ B := hne
  have hcall1 := updateStatusTxn_changed st ref B f1 o h hneB
  have hfind1 : getOfferingByRef
      { st with
        offerings := updateOfferingStatus st.offerings B (orNull f1) ref,
        daily_summaries := updateDailySummaryCounters st.daily_summaries
          (getStatusDelta o.status B).1 (getStatusDelta o.status B).2
          o.created_date o.category_code } ref =
      some { o with status := B, financial_txn_id := orNull f1 } :=
    find?_updateOfferingStatus st.offerings B (orNull f1) ref o h
  have hneA : ({ o with status := B, financial_txn_id := orNull f1 } : Offering).status ≠
      o.status := hne.symm
  have hcall2 := updateStatusTxn_changed _ ref o.status f2 _ hfind1 hneA
  refine ⟨_, _, _, _, hcall1, hcall2, ?_, ?_⟩
  · have hfind2 := find?_updateOfferingStatus
      (updateOfferingStatus st.offerings B (orNull f1) ref) o.status (orNull f2) ref
      { o with status := B, financial_txn_id := orNull f1 } hfind1
    rw [show getOfferingByRef
        ({ st with
           offerings := updateOfferingStatus
             (updateOfferingStatus st.offerings B (orNull f1) ref) o.status (orNull f2) ref,
           daily_summaries := updateDailySummaryCounters
             (updateDailySummaryCounters st.daily_summaries
               (getStatusDelta o.status B).1 (getStatusDelta o.status B).2
               o.created_date o.category_code)
             (getStatusDelta B o.status).1 (getStatusDelta B o.status).2
             o.created_date o.category_code } : LedgerState) ref =
        some { o with status := o.status, financial_txn_id := orNull f2 } from hfind2]
    rfl
  · exact updateCounters_cancel st.daily_summaries
      (getStatusDelta o.status B).1 (getStatusDelta o.status B).2
      (getStatusDelta B o.status).1 (getStatusDelta B o.status).2
      o.created_date o.category_code (hzero o.status B).1 (hzero o.status B).2

/-- Witness for the round-trip theorem: `PENDING → SUCCESSFUL → PENDING`
on the sample ledger. -/
theorem transition_round_trip_witness :
    ∃ st1 o1 st2 o2,
      updateStatusTxn sampleState "TITHE-2026-0211-001" Status.SUCCESSFUL (some "FT1") =
        some (st1, o1, true) ∧
      updateStatusTxn st1 "TITHE-2026-0211-001" Status.PENDING none =
        some (st2, o2, true) ∧
      (getOfferingByRef st2 "TITHE-2026-0211-001").map Offering.status =
        some Status.PENDING ∧
      st2.daily_summaries = sampleState.daily_summaries :=
  (transition_round_trip sampleState "TITHE-2026-0211-001" Status.PENDING
    Status.SUCCESSFUL (some "FT1") none sampleOffering rfl rfl (by decide)).2

/-! ## C4: retry sweep selection -/

/-- C4. Retry sweep selection: every selected entry comes from the queue
with `retry_count` below the budget of 5 and a `last_attempt_at` that is
null or strictly older than the 2-minute cooldown; at most `BATCH_SIZE`
(10) entries are selected, ordered oldest-created first; every eligible
entry is selected whenever the eligible set fits in one batch; an entry
with 5 failed attempts is never selected; an entry attempted at time `t`
is not re-selected before `t` + 2 minutes have elapsed. -/
theorem retry_sweep_selection (q : List QueueEntry) (now : Nat) :
    (∀ e ∈ getPendingItems q now, e ∈ q ∧ e.retry_count < MAX_RETRIES ∧
       ∀ t, e.last_attempt_at = some t → t + COOLDOWN_MINUTES * 60 < now) ∧
    (getPendingItems q now).length ≤ BATCH_SIZE ∧
    (getPendingItems q now).Pairwise (fun a b => a.created_at ≤ b.created_at) ∧
    (∀ e ∈ q, isEligibleForRetry now e = true →
       (q.filter (isEligibleForRetry now)).length ≤ BATCH_SIZE →
       e ∈ getPendingItems q now) ∧
    (∀ e ∈ q, MAX_RETRIES ≤ e.retry_count → e ∉ getPendingItems q now) ∧
    (∀ e ∈ q, ∀ t, e.last_attempt_at = some t → now ≤ t + COOLDOWN_MINUTES * 60 →
       e ∉ getPendingItems q now) := by
  have hsel : ∀ e ∈ getPendingItems q now, e ∈ q ∧ isEligibleForRetry now e = true := by
    intro e he
    have h1 : e ∈ (q.filter (isEligibleForRetry now)).mergeSort
        (fun a b => a.created_at ≤ b.created_at) :=
      (List.take_sublist _ _).subset he
    have h2 : e ∈ q.filter (isEligibleForRetry now) := List.mem_mergeSort.mp h1
    exact List.mem_filter.mp h2
  have helig : ∀ e : QueueEntry, isEligibleForRetry now e = true →
      e.retry_count < MAX_RETRIES ∧
      ∀ t, e.last_attempt_at = some t → t + COOLDOWN_MINUTES * 60 < now := by
    intro e he
    unfold isEligibleForRetry at he
    rw [Bool.and_eq_true] at he
    refine ⟨by simpa using he.1, ?_⟩
    intro t ht
    have h2 := he.2
    rw [ht] at h2
    simpa using h2
  refine ⟨?_, ?_, ?_, ?_, ?_, ?_⟩
  · intro e he
    exact ⟨(hsel e he).1, helig e (hsel e he).2⟩
  · exact List.length_take_le _ _
  · have htrans : ∀ a b c : QueueEntry,
        decide (a.created_at ≤ b.created_at) = true →
        decide (b.created_at ≤ c.created_at) = true →
        decide (a.created_at ≤ c.created_at) = true := by
      intro a b c hab hbc
      simp only [decide_eq_true_eq] at *
      omega
    have htotal : ∀ a b : QueueEntry,
        (decide (a.created_at ≤ b.created_at) || decide (b.created_at ≤ a.created_at))
          = true := by
      intro a b
      simp only [Bool.or_eq_true, decide_eq_true_eq]
      omega
    have hs := @List.sorted_mergeSort QueueEntry
      (fun a b => decide (a.created_at ≤ b.created_at)) htrans htotal
      (q.filter (isEligibleForRetry now))
    have hp := List.Pairwise.sublist (List.take_sublist BATCH_SIZE _) hs
    exact hp.imp (fun h => by simpa using h)
  · intro e heq he hlen
    have hf : e ∈ q.filter (isEligibleForRetry now) := List.mem_filter.mpr ⟨heq, he⟩
    have hperm := List.mergeSort_perm (q.filter (isEligibleForRetry now))
      (fun a b => a.created_at ≤ b.created_at)
    have hlen2 : ((q.filter (isEligibleForRetry now)).mergeSort
        (fun a b => a.created_at ≤ b.created_at)).length ≤ BATCH_SIZE := by
      rw [hperm.length_eq]
      exact hlen
    unfold getPendingItems
    rw [List.take_of_length_le hlen2]
    exact List.mem_mergeSort.mpr hf
  · intro e _ hge hmem
    have h := (helig e (hsel e hmem).2).1
    omega
  · intro e _ t ht hle hmem
    have h := (helig e (hsel e hmem).2).2 t ht
    omega

/-- A retry entry whose budget of 5 attempts is exhausted. -/
def exhaustedEntry : QueueEntry :=
  { id := 1, reference_number := "TITHE-2026-0211-001",
    momo_reference_id := "uuid-0001", amount := 50, phone_number := "0241234567",
    payer_message := none, retry_count := 5, last_attempt_at := some 1000,
    created_at := 0 }

/-- Witness for the retry selection theorem: an entry with 5 failed
attempts is not selected by a later sweep. -/
theorem retry_sweep_selection_witness :
    exhaustedEntry ∉ getPendingItems [exhaustedEntry] 2000 :=
  (retry_sweep_selection [exhaustedEntry] 2000).2.2.2.2.1 exhaustedEntry
    (List.mem_singleton.mpr rfl) (by decide)

/-! ## C5: retry sweep outcome handling -/

/-- Look up a queue row by primary key
(`SELECT ... FROM pending_queue WHERE id = ?`). -/
def findQueueItem (q : List QueueEntry) (i : Nat) : Option QueueEntry :=
  q.find? (fun e => e.id = i)

/-- The effect of `incrementRetry` on one row: `retry_count + 1`,
`last_attempt_at = CURRENT_TIMESTAMP`. -/
def bumpRetry (now : Nat) (e : QueueEntry) : QueueEntry :=
  { e with retry_count := e.retry_count + 1, last_attempt_at := some now }

theorem findQueueItem_delete_self (q : List QueueEntry) (i : Nat) :
    findQueueItem (deleteQueueItem q i) i = none := by
  induction q with
  | nil => rfl
  | cons a l ih =>
    unfold findQueueItem deleteQueueItem at *
    rw [List.filter_cons]
    by_cases h : a.id = i
    · rw [if_neg (by simp [h])]
      exact ih
    · rw [if_pos (by simp [h]), List.find?_cons_of_neg _ (by simp [h])]
      exact ih

theorem findQueueItem_delete_ne (q : List QueueEntry) (i j : Nat) (hne : i ≠ j) :
    findQueueItem (deleteQueueItem q j) i = findQueueItem q i := by
  induction q with
  | nil => rfl
  | cons a l ih =>
    unfold findQueueItem deleteQueueItem at *
    rw [List.filter_cons]
    by_cases h : a.id = j
    · have hi : ¬a.id = i := fun hc => hne (hc.symm.trans h)
      rw [if_neg (by simp [h]), List.find?_cons_of_neg _ (by simp [hi])]
      exact ih
    · rw [if_pos (by simp [h])]
      by_cases hi : a.id = i
      · rw [List.find?_cons_of_pos _ (by simp [hi]),
            List.find?_cons_of_pos _ (by simp [hi])]
      · rw [List.find?_cons_of_neg _ (by simp [hi]),
            List.find?_cons_of_neg _ (by simp [hi])]
        exact ih

theorem findQueueItem_increment_self (q : List QueueEntry) (i : Nat) (now : Nat) :
    findQueueItem (incrementRetry q i now) i =
      (findQueueItem q i).map (bumpRetry now) := by
  induction q with
  | nil => rfl
  | cons a l ih =>
    unfold findQueueItem incrementRetry at *
    rw [List.map_cons]
    by_cases h : a.id = i
    · rw [List.find?_cons_of_pos _ (by simp [h]),
          List.find?_cons_of_pos _ (by simp [h])]
      simp [h, bumpRetry]
    · rw [List.find?_cons_of_neg _ (by simp [h]),
          List.find?_cons_of_neg _ (by simp [h])]
      exact ih

theorem findQueueItem_increment_ne (q : List QueueEntry) (i j : Nat) (now : Nat)
    (hne : i ≠ j) :
    findQueueItem (incrementRetry q j now) i = findQueueItem q i := by
  induction q with
  | nil => rfl
  | cons a l ih =>
    unfold findQueueItem incrementRetry at *
    rw [List.map_cons]
    by_cases h : a.id = j
    · have hi : ¬a.id = i := fun hc => hne (hc.symm.trans h)
      rw [List.find?_cons_of_neg _ (by simp [h]; omega),
          List.find?_cons_of_neg _ (by simp [hi])]
      exact ih
    · by_cases hi : a.id = i
      · rw [List.find?_cons_of_pos _ (by simp [h, hi]; rw [if_neg hne]; exact hi),
            List.find?_cons_of_pos _ (by simp [hi])]
        simp [h]
      · rw [List.find?_cons_of_neg _ (by simp [h, hi]),
            List.find?_cons_of_neg _ (by simp [hi])]
        exact ih

theorem findQueueItem_processItem_ne (accepts : QueueEntry → Bool) (now : Nat)
    (q : List QueueEntry) (a : QueueEntry) (i : Nat) (hne : i ≠ a.id) :
    findQueueItem (processItem accepts now q a) i = findQueueItem q i := by
  unfold processItem
  by_cases hacc : accepts a
  · simp [hacc, findQueueItem_delete_ne q i a.id hne]
  · simp [hacc, findQueueItem_increment_ne q i a.id now hne]

theorem processItems_untouched (accepts : QueueEntry → Bool) (now : Nat)
    (items : List QueueEntry) (q : List QueueEntry) (i : Nat)
    (hi : ∀ item ∈ items, item.id ≠ i) :
    findQueueItem (processItems accepts now items q) i = findQueueItem q i := by
  induction items generalizing q with
  | nil => rfl
  | cons a rest ih =>
    have ha : a.id ≠ i := hi a (List.mem_cons_self a rest)
    show findQueueItem (processItems accepts now rest (processItem accepts now q a)) i
      = findQueueItem q i
    rw [ih (processItem accepts now q a) (fun item hm => hi item (List.mem_cons_of_mem a hm))]
    exact findQueueItem_processItem_ne accepts now q a i (Ne.symm ha)

theorem processItems_processed (accepts : QueueEntry → Bool) (now : Nat)
    (items : List QueueEntry) (q : List QueueEntry) (item : QueueEntry)
    (hmem : item ∈ items) (hnd : (items.map QueueEntry.id).Nodup) :
    findQueueItem (processItems accepts now items q) item.id =
      if accepts item then none
      else (findQueueItem q item.id).map (bumpRetry now) := by
  induction items generalizing q with
  | nil => cases hmem
  | cons a rest ih =>
    rw [List.map_cons, List.nodup_cons] at hnd
    rcases List.mem_cons.mp hmem with rfl | hmem'
    · have hrest : ∀ x ∈ rest, x.id ≠ item.id := by
        intro x hx hEq
        exact hnd.1 (hEq ▸ List.mem_map_of_mem QueueEntry.id hx)
      show findQueueItem
        (processItems accepts now rest (processItem accepts now q item)) item.id = _
      rw [processItems_untouched accepts now rest _ item.id hrest]
      unfold processItem
      by_cases hacc : accepts item
      · simp [hacc, findQueueItem_delete_self]
      · simp [hacc, findQueueItem_increment_self]
    · have hne : a.id ≠ item.id := by
        intro hEq
        exact hnd.1 (hEq ▸ List.mem_map_of_mem QueueEntry.id hmem')
      show findQueueItem
        (processItems accepts now rest (processItem accepts now q a)) item.id = _
      rw [ih (processItem accepts now q a) hmem' hnd.2,
          findQueueItem_processItem_ne accepts now q a item.id (Ne.symm hne)]

theorem findQueueItem_of_mem (q : List QueueEntry) (e : QueueEntry)
    (hnd : (q.map QueueEntry.id).Nodup) (he : e ∈ q) :
    findQueueItem q e.id = some e := by
  induction q with
  | nil => cases he
  | cons a l ih =>
    rw [List.map_cons, List.nodup_cons] at hnd
    rcases List.mem_cons.mp he with rfl | he'
    · simp [findQueueItem, List.find?_cons]
    · have hne : ¬a.id = e.id := by
        intro hEq
        exact hnd.1 (hEq ▸ List.mem_map_of_mem QueueEntry.id he')
      simpa [findQueueItem, List.find?_cons, hne] using ih hnd.2 he'

theorem getPendingItems_subset (q : List QueueEntry) (now : Nat) :
    ∀ e ∈ getPendingItems q now, e ∈ q := by
  intro e he
  have h1 : e ∈ (q.filter (isEligibleForRetry now)).mergeSort
      (fun a b => a.created_at ≤ b.created_at) :=
    (List.take_sublist _ _).subset he
  exact (List.mem_filter.mp (List.mem_mergeSort.mp h1)).1

theorem getPendingItems_nodup (q : List QueueEntry) (now : Nat)
    (hnd : (q.map QueueEntry.id).Nodup) :
    ((getPendingItems q now).map QueueEntry.id).Nodup := by
  have h1 : ((q.filter (isEligibleForRetry now)).map QueueEntry.id).Nodup :=
    List.Nodup.sublist (List.Sublist.map QueueEntry.id (List.filter_sublist q)) hnd
  have hperm : List.Perm
      (((q.filter (isEligibleForRetry now)).mergeSort
        (fun a b => a.created_at ≤ b.created_at)).map QueueEntry.id)
      ((q.filter (isEligibleForRetry now)).map QueueEntry.id) :=
    List.Perm.map QueueEntry.id (List.mergeSort_perm _ _)
  have h2 := hperm.nodup_iff.mpr h1
  exact List.Nodup.sublist (List.Sublist.map QueueEntry.id (List.take_sublist _ _)) h2

/-- C5. Retry sweep outcomes: the sweep never touches transactions or
aggregates; for every selected entry, an accepted resubmission deletes
the entry from the queue while a failed one leaves it queued with
`retry_count` incremented and `last_attempt_at = now`; these hold for
every selected entry simultaneously under any mix of outcomes, so one
entry's failure never aborts the processing of the others; unselected
entries are untouched. -/
theorem retry_sweep_outcomes (st : LedgerState) (accepts : QueueEntry → Bool) (now : Nat)
    (hnd : (st.pending_queue.map QueueEntry.id).Nodup) :
    (processPendingQueue st accepts now).offerings = st.offerings ∧
    (processPendingQueue st accepts now).daily_summaries = st.daily_summaries ∧
    (∀ item ∈ getPendingItems st.pending_queue now,
      (accepts item = true →
        findQueueItem (processPendingQueue st accepts now).pending_queue item.id = none) ∧
      (accepts item = false →
        findQueueItem (processPendingQueue st accepts now).pending_queue item.id =
          some (bumpRetry now item))) ∧
    (∀ e ∈ st.pending_queue,
      (∀ item ∈ getPendingItems st.pending_queue now, item.id ≠ e.id) →
      findQueueItem (processPendingQueue st accepts now).pending_queue e.id = some e) := by
  refine ⟨rfl, rfl, ?_, ?_⟩
  · intro item hitem
    have hnd2 := getPendingItems_nodup st.pending_queue now hnd
    have hmain := processItems_processed accepts now
      (getPendingItems st.pending_queue now) st.pending_queue item hitem hnd2
    constructor
    · intro hacc
      show findQueueItem (processItems accepts now
        (getPendingItems st.pending_queue now) st.pending_queue) item.id = none
      rw [hmain]
      simp [hacc]
    · intro hacc
      show findQueueItem (processItems accepts now
        (getPendingItems st.pending_queue now) st.pending_queue) item.id = _
      rw [hmain]
      have hq : item ∈ st.pending_queue :=
        getPendingItems_subset st.pending_queue now item hitem
      rw [findQueueItem_of_mem st.pending_queue item hnd hq]
      simp [hacc]
  · intro e he hno
    show findQueueItem (processItems accepts now
      (getPendingItems st.pending_queue now) st.pending_queue) e.id = some e
    rw [processItems_untouched accepts now _ st.pending_queue e.id hno]
    exact findQueueItem_of_mem st.pending_queue e hnd he

theorem mem_getPendingItems (q : List QueueEntry) (now : Nat) (e : QueueEntry)
    (he : e ∈ q) (helig : isEligibleForRetry now e = true)
    (hlen : (q.filter (isEligibleForRetry now)).length ≤ BATCH_SIZE) :
    e ∈ getPendingItems q now := by
  have hf : e ∈ q.filter (isEligibleForRetry now) := List.mem_filter.mpr ⟨he, helig⟩
  have hperm := List.mergeSort_perm (q.filter (isEligibleForRetry now))
    (fun a b => a.created_at ≤ b.created_at)
  have hlen2 : ((q.filter (isEligibleForRetry now)).mergeSort
      (fun a b => a.created_at ≤ b.created_at)).length ≤ BATCH_SIZE := by
    rw [hperm.length_eq]
    exact hlen
  unfold getPendingItems
  rw [List.take_of_length_le hlen2]
  exact List.mem_mergeSort.mpr hf

/-- A queued retry entry never attempted yet. -/
def pendingEntryA : QueueEntry :=
  { id := 1, reference_number := "OFFR-2026-0211-001", momo_reference_id := "uuid-1001",
    amount := 20, phone_number := "0240000001", payer_message := none,
    retry_count := 0, last_attempt_at := none, created_at := 10 }

/-- A queued retry entry with two failed attempts, cooldown elapsed. -/
def pendingEntryB : QueueEntry :=
  { id := 2, reference_number := "OFFR-2026-0211-002", momo_reference_id := "uuid-1002",
    amount := 30, phone_number := "0240000002", payer_message := none,
    retry_count := 2, last_attempt_at := some 100, created_at := 20 }

/-- Ledger whose queue holds the two sample retry entries. -/
def retryState : LedgerState :=
  { offerings := [], daily_summaries := [], categories := [],
    pending_queue := [pendingEntryA, pendingEntryB] }

/-- Witness for the sweep-outcome theorem: with an external client that
accepts only entry 1, entry 2's failed resubmission leaves it queued
with its counter bumped and its attempt timestamp set. -/
theorem retry_sweep_outcomes_witness :
    findQueueItem
      (processPendingQueue retryState (fun e => decide (e.id = 1)) 1000).pending_queue 2 =
      some (bumpRetry 1000 pendingEntryB) :=
  ((retry_sweep_outcomes retryState (fun e => decide (e.id = 1)) 1000 (by decide)).2.2.1
    pendingEntryB
    (mem_getPendingItems retryState.pending_queue 1000 pendingEntryB
      (by decide) (by decide) (by decide))).2 (by decide)

/-! ## C6: poll driver short-circuit and soft degradation -/

/-- C6. Poll driver: a terminal local status is answered identically for
every behaviour of the external client (the client is never consulted)
with no state change; a failed external query degrades softly to the
stored status plus a `momoError` indicator, still `success: true`, with
no state change; a successful external query whose status differs from
the local one drives the state through `updateStatusTxn` with the
returned status. -/
theorem poll_driver_spec (st : LedgerState) (ref : String) (o : Offering)
    (h : getOfferingByRef st ref = some o) :
    ((o.status = Status.SUCCESSFUL ∨ o.status = Status.FAILED) →
      ∀ ext, pollStatusRoute st ref ext =
        (st, { httpStatus := 200, success := true, status := some o.status,
               financialTxnId := o.financial_txn_id, momoError := none })) ∧
    (¬(o.status = Status.SUCCESSFUL ∨ o.status = Status.FAILED) →
      (∀ e, pollStatusRoute st ref (Except.error e) =
        (st, { httpStatus := 200, success := true, status := some o.status,
               financialTxnId := o.financial_txn_id, momoError := some e })) ∧
      (∀ r ns, r.status = some ns → ns ≠ o.status →
        ∃ st' off, updateStatusTxn st ref ns (orNull r.financialTransactionId) =
            some (st', off, true) ∧
          (pollStatusRoute st ref (Except.ok r)).1 = st')) := by
  constructor
  · intro hterm ext
    unfold pollStatusRoute
    rw [h]
    simp [hterm]
  · intro hterm
    constructor
    · intro e
      unfold pollStatusRoute
      rw [h]
      simp [hterm]
    · intro r ns hr hne
      have hchanged := updateStatusTxn_changed st ref ns
        (orNull r.financialTransactionId) o h (Ne.symm hne)
      refine ⟨_, _, hchanged, ?_⟩
      unfold pollStatusRoute
      rw [h]
      simp only [hterm, if_false]
      rw [hr]
      simp [hne, hchanged]

/-- Witness for the poll driver theorem: an unreachable client degrades
to the stored `PENDING` status with a `momoError`, not a hard failure. -/
theorem poll_driver_spec_witness :
    pollStatusRoute sampleState "TITHE-2026-0211-001" (Except.error "timeout") =
      (sampleState, { httpStatus := 200, success := true,
                      status := some Status.PENDING, financialTxnId := none,
                      momoError := some "timeout" }) :=
  ((poll_driver_spec sampleState "TITHE-2026-0211-001" sampleOffering rfl).2
    (by decide)).1 "timeout"

/-! ## C7: NotFound signaling with no mutation -/

/-- C7. NotFound: a transition request for a reference matching no
transaction returns `null` from the engine — it builds no new state, so
transactions and aggregates are untouched — and the webhook driver
answers it as a 404 `'Offering not found'` anomaly on the unchanged
ledger, distinct from the 400 validation and 500 internal-error
responses. -/
theorem webhook_notFound (st : LedgerState) (eid s : String) (ns : Status)
    (fin : Option String) (heid : eid ≠ "") (hs : statusOfString s = some ns)
    (hnf : getOfferingByRef st eid = none) :
    updateStatusTxn st eid ns fin = none ∧
    momoCallbackRoute st (some eid) (some s) fin =
      (st, { httpStatus := 404, success := false,
             error := some "Offering not found" }) := by
  have hs' : s ≠ "" := by
    intro hempty
    rw [hempty] at hs
    simp [statusOfString] at hs
  refine ⟨updateStatusTxn_notFound st eid ns fin hnf, ?_⟩
  have h1 : orNull (some eid) = some eid := by simp [orNull, heid]
  have h2 : orNull (some s) = some s := by simp [orNull, hs']
  unfold momoCallbackRoute
  rw [h1, h2]
  simp only [hs, updateStatusTxn_notFound st eid ns fin hnf]

/-- Witness for the NotFound theorem: a webhook for an unknown reference
on the sample ledger. -/
theorem webhook_notFound_witness :
    updateStatusTxn sampleState "UNKNOWN-REF" Status.SUCCESSFUL none = none ∧
    momoCallbackRoute sampleState (some "UNKNOWN-REF") (some "SUCCESSFUL") none =
      (sampleState, { httpStatus := 404, success := false,
                      error := some "Offering not found" }) :=
  webhook_notFound sampleState "UNKNOWN-REF" "SUCCESSFUL" Status.SUCCESSFUL none
    (by decide) rfl rfl

/-! ## C8: creation robustness -/

theorem findSummary_upsert (ss : List DailySummary) (d c : String) (amount : Rat) :
    findSummary (upsertDailySummary ss d c amount) d c =
      some (match findSummary ss d c with
            | some s => { s with
                          total_count := s.total_count + 1,
                          total_amount := s.total_amount + amount }
            | none => { summary_date := d, category_code := c, total_count := 1,
                        total_amount := amount, success_count := 0,
                        failed_count := 0 }) := by
  unfold upsertDailySummary
  by_cases hany : ss.any (fun s => s.summary_date = d ∧ s.category_code = c) = true
  · rw [if_pos hany]
    have hmap : findSummary (ss.map (fun s =>
        if s.summary_date = d ∧ s.category_code = c then
          { s with total_count := s.total_count + 1,
                   total_amount := s.total_amount + amount }
        else s)) d c =
        (findSummary ss d c).map (fun s =>
          if s.summary_date = d ∧ s.category_code = c then
            { s with total_count := s.total_count + 1,
                     total_amount := s.total_amount + amount }
          else s) := by
      unfold findSummary
      apply find?_map_key
      intro s
      by_cases hk : s.summary_date = d ∧ s.category_code = c <;> simp [hk]
    rw [hmap]
    have hsome : (findSummary ss d c).isSome := by
      unfold findSummary
      exact List.find?_isSome.mpr (List.any_eq_true.mp hany)
    obtain ⟨s0, hs0⟩ := Option.isSome_iff_exists.mp hsome
    rw [hs0]
    have hp := List.find?_some hs0
    simp only [decide_eq_true_eq] at hp
    simp [hp]
  · rw [if_neg hany]
    have hnone : findSummary ss d c = none := by
      unfold findSummary
      rw [List.find?_eq_none]
      intro x hx hpx
      exact hany (List.any_eq_true.mpr ⟨x, hx, hpx⟩)
    unfold findSummary at *
    rw [List.find?_append, hnone, List.find?_cons_of_pos _ (by simp)]
    rfl

/-- C8. Creation robustness: once validation passes (non-empty phone,
positive amount, known category), the route persists the `PENDING`
transaction row and the aggregate increment (`total_count + 1`,
`total_amount + amount`) and answers 202 `success: true` for *every*
submission outcome; a failed provider submission additionally enqueues a
retry entry referencing the new transaction instead of failing the
response. -/
theorem creation_robustness (st : LedgerState) (ph : String) (a : Rat)
    (cat catName : String) (note : Option String) (refN momoId today : String)
    (qid nowT : Nat) (submit : Except String Unit)
    (hph : ph ≠ "") (ha : 0 < a) (hcat : cat ≠ "")
    (hfound : getCategoryByCode st cat = some (cat, catName)) :
    ∃ queueTail : List QueueEntry,
      createOfferingRoute st (some ph) (some a) (some cat) note refN momoId today
          submit qid nowT =
        ({ offerings := st.offerings ++
             [{ reference_number := refN, momo_reference_id := momoId,
                category_code := cat, amount := a, phone_number := ph,
                payer_message := orNull note, status := Status.PENDING,
                financial_txn_id := none, created_date := today }],
           daily_summaries := upsertDailySummary st.daily_summaries today cat a,
           pending_queue := st.pending_queue ++ queueTail,
           categories := st.categories },
         { httpStatus := 202, success := true, error := none,
           referenceNumber := some refN, status := some Status.PENDING,
           momoError := match submit with
                        | Except.ok _ => none
                        | Except.error m => some m }) ∧
      (submit = Except.ok () → queueTail = []) ∧
      (∀ msg, submit = Except.error msg → queueTail =
        [{ id := qid, reference_number := refN, momo_reference_id := momoId,
           amount := a, phone_number := ph,
           payer_message := some ((orNull note).getD (catName ++ " Offering")),
           retry_count := 0, last_attempt_at := none, created_at := nowT }]) ∧
      findSummary (upsertDailySummary st.daily_summaries today cat a) today cat =
        some (match findSummary st.daily_summaries today cat with
              | some s => { s with
                            total_count := s.total_count + 1,
                            total_amount := s.total_amount + a }
              | none => { summary_date := today, category_code := cat,
                          total_count := 1, total_amount := a,
                          success_count := 0, failed_count := 0 }) := by
  have h1 : orNull (some ph) = some ph := by simp [orNull, hph]
  have h2 : orNull (some cat) = some cat := by simp [orNull, hcat]
  have hza : ¬a = 0 := ha.ne'
  have hla : ¬a ≤ 0 := not_le.mpr ha
  cases submit with
  | ok u =>
    refine ⟨[], ?_, fun _ => rfl, fun msg hmsg => Except.noConfusion hmsg,
      findSummary_upsert st.daily_summaries today cat a⟩
    unfold createOfferingRoute createOfferingTxn
    rw [h1]
    simp only [h2, hfound, if_neg hza, if_neg hla, List.append_nil]
  | error msg =>
    refine ⟨[{ id := qid, reference_number := refN, momo_reference_id := momoId,
               amount := a, phone_number := ph,
               payer_message := some ((orNull note).getD (catName ++ " Offering")),
               retry_count := 0, last_attempt_at := none, created_at := nowT }],
      ?_, fun hok => Except.noConfusion hok, fun m hm => rfl,
      findSummary_upsert st.daily_summaries today cat a⟩
    unfold createOfferingRoute createOfferingTxn
    rw [h1]
    simp only [h2, hfound, if_neg hza, if_neg hla]

/-- Witness for the creation-robustness theorem: creating a 30 GHS TITHE
offering on the sample ledger while the provider is unreachable still
answers 202 with the row persisted and a retry entry enqueued. -/
theorem creation_robustness_witness :
    ∃ queueTail : List QueueEntry,
      createOfferingRoute sampleState (some "0241234567") (some 30) (some "TITHE")
          none "TITHE-2026-0211-002" "uuid-0002" "2026-02-11"
          (Except.error "MoMo unreachable") 7 500 =
        ({ offerings := sampleState.offerings ++
             [{ reference_number := "TITHE-2026-0211-002",
                momo_reference_id := "uuid-0002", category_code := "TITHE",
                amount := 30, phone_number := "0241234567",
                payer_message := orNull none, status := Status.PENDING,
                financial_txn_id := none, created_date := "2026-02-11" }],
           daily_summaries :=
             upsertDailySummary sampleState.daily_summaries "2026-02-11" "TITHE" 30,
           pending_queue := sampleState.pending_queue ++ queueTail,
           categories := sampleState.categories },
         { httpStatus := 202, success := true, error := none,
           referenceNumber := some "TITHE-2026-0211-002",
           status := some Status.PENDING,
           momoError :=
             match (Except.error "MoMo unreachable" : Except String Unit) with
             | Except.ok _ => none
             | Except.error m => some m }) ∧
      ((Except.error "MoMo unreachable" : Except String Unit) = Except.ok () →
        queueTail = []) ∧
      (∀ msg, (Except.error "MoMo unreachable" : Except String Unit) =
          Except.error msg →
        queueTail =
          [{ id := 7, reference_number := "TITHE-2026-0211-002",
             momo_reference_id := "uuid-0002", amount := 30,
             phone_number := "0241234567",
             payer_message := some ((orNull none).getD ("Tithes" ++ " Offering")),
             retry_count := 0, last_attempt_at := none, created_at := 500 }]) ∧
      findSummary
        (upsertDailySummary sampleState.daily_summaries "2026-02-11" "TITHE" 30)
        "2026-02-11" "TITHE" =
        some (match findSummary sampleState.daily_summaries "2026-02-11" "TITHE" with
              | some s => { s with
                            total_count := s.total_count + 1,
                            total_amount := s.total_amount + 30 }
              | none => { summary_date := "2026-02-11", category_code := "TITHE",
                          total_count := 1, total_amount := 30,
                          success_count := 0, failed_count := 0 }) :=
  creation_robustness sampleState "0241234567" 30 "TITHE" "Tithes" none
    "TITHE-2026-0211-002" "uuid-0002" "2026-02-11" 7 500
    (Except.error "MoMo unreachable") (by decide) (by norm_num) (by decide) rfl

/-! ## C1: aggregate consistency invariant -/

/-- Membership of an offering in the daily bucket `(d, c)`
(creation date and category determine the bucket, never recomputed). -/
def inBucket (d c : String) (o : Offering) : Bool :=
  decide (o.created_date = d) && decide (o.category_code = c)

/-- The transactions of daily bucket `(d, c)`. -/
def bucketOfferings (os : List Offering) (d c : String) : List Offering :=
  os.filter (inBucket d c)

/-- Sum of the amounts of a list of transactions. -/
def sumAmounts (os : List Offering) : Rat := (os.map Offering.amount).sum

/-- The aggregate-consistency property: every `daily_summaries` row
carries exactly the statistics of its bucket — `success_count` and
`failed_count` count the bucket's `SUCCESSFUL` resp. `FAILED`
transactions, `total_count`/`total_amount` are the count and amount-sum
of all transactions ever created in the bucket — and a bucket with no
summary row holds no transactions. -/
def AggConsistent (st : LedgerState) : Prop :=
  (∀ s ∈ st.daily_summaries,
    s.success_count =
      ((bucketOfferings st.offerings s.summary_date s.category_code).filter
        (fun o => o.status = Status.SUCCESSFUL)).length ∧
    s.failed_count =
      ((bucketOfferings st.offerings s.summary_date s.category_code).filter
        (fun o => o.status = Status.FAILED)).length ∧
    s.total_count =
      (bucketOfferings st.offerings s.summary_date s.category_code).length ∧
    s.total_amount =
      sumAmounts (bucketOfferings st.offerings s.summary_date s.category_code)) ∧
  (∀ d c, findSummary st.daily_summaries d c = none →
    bucketOfferings st.offerings d c = [])

/-- The UNIQUE constraint on `offerings.reference_number`. -/
def RefsUnique (st : LedgerState) : Prop :=
  (st.offerings.map Offering.reference_number).Nodup

/-- One mutating operation of the engine on transactions/aggregates: a
creation (`createOfferingTxn`; the reference is fresh, as enforced by
the UNIQUE column constraint) or a status transition
(`updateStatusTxn`). -/
inductive LedgerStep : LedgerState → LedgerState → Prop where
  | create (st : LedgerState) (refNumber momoRefId todayStr category : String)
      (amount : Rat) (phone : String) (note : Option String)
      (hfresh : ∀ o ∈ st.offerings, o.reference_number ≠ refNumber) :
      LedgerStep st
        (createOfferingTxn st refNumber momoRefId todayStr category amount phone note)
  | transition (st : LedgerState) (ref : String) (ns : Status) (f : Option String)
      (st' : LedgerState) (off : Offering) (c : Bool)
      (h : updateStatusTxn st ref ns f = some (st', off, c)) :
      LedgerStep st st'

/-- States reachable from an empty ledger by any sequence of creations
and transitions. -/
inductive LedgerReachable : LedgerState → Prop where
  | init (queue : List QueueEntry) (cats : List (String × String)) :
      LedgerReachable { offerings := [], daily_summaries := [],
                        pending_queue := queue, categories := cats }
  | step (st st' : LedgerState) (h : LedgerReachable st)
      (hs : LedgerStep st st') : LedgerReachable st'

theorem find?_split {α : Type} (p : α → Bool) (l : List α) (a : α)
    (h : l.find? p = some a) :
    ∃ l1 l2, l = l1 ++ a :: l2 ∧ ∀ x ∈ l1, ¬p x = true := by
  induction l with
  | nil => cases h
  | cons b t ih =>
    by_cases hb : p b
    · rw [List.find?_cons_of_pos t hb] at h
      obtain rfl := Option.some.inj h
      exact ⟨[], t, rfl, by simp⟩
    · rw [List.find?_cons_of_neg t hb] at h
      obtain ⟨l1, l2, rfl, h1⟩ := ih h
      refine ⟨b :: l1, l2, rfl, ?_⟩
      intro x hx
      rcases List.mem_cons.mp hx with rfl | hx'
      · exact hb
      · exact h1 x hx'

theorem nodup_split_right (l1 l2 : List Offering) (o0 : Offering)
    (hnd : (((l1 ++ o0 :: l2)).map Offering.reference_number).Nodup) :
    ∀ x ∈ l2, x.reference_number ≠ o0.reference_number := by
  rw [List.map_append, List.map_cons, List.nodup_append] at hnd
  have h2 := hnd.2.1
  rw [List.nodup_cons] at h2
  intro x hx hEq
  exact h2.1 (hEq ▸ List.mem_map_of_mem Offering.reference_number hx)

theorem length_filter_update (l1 l2 : List Offering) (y z : Offering)
    (q : Offering → Bool) :
    ((l1 ++ z :: l2).filter q).length + (if q y = true then 1 else 0) =
    ((l1 ++ y :: l2).filter q).length + (if q z = true then 1 else 0) := by
  rw [List.filter_append, List.filter_append, List.filter_cons, List.filter_cons]
  by_cases hy : q y = true <;> by_cases hz : q z = true <;>
    simp [hy, hz] <;> omega

theorem length_filter_update_eq (l1 l2 : List Offering) (y z : Offering)
    (q : Offering → Bool) (hq : q z = q y) :
    ((l1 ++ z :: l2).filter q).length = ((l1 ++ y :: l2).filter q).length := by
  have h := length_filter_update l1 l2 y z q
  rw [hq] at h
  omega

theorem sum_filter_update (l1 l2 : List Offering) (y z : Offering)
    (q : Offering → Bool) (hq : q z = q y) (hamt : z.amount = y.amount) :
    sumAmounts ((l1 ++ z :: l2).filter q) = sumAmounts ((l1 ++ y :: l2).filter q) := by
  rw [List.filter_append, List.filter_append, List.filter_cons, List.filter_cons, hq]
  by_cases hy : q y = true
  · simp only [hy, if_true, sumAmounts, List.map_append, List.map_cons,
      List.sum_append, List.sum_cons, hamt]
  · simp [hy]

theorem inBucket_update (d c : String) (ns : Status) (f : Option String) (r : String)
    (o : Offering) :
    inBucket d c (if o.reference_number = r then
      { o with status := ns, financial_txn_id := f } else o) = inBucket d c o := by
  by_cases h : o.reference_number = r <;> simp [inBucket, h]

theorem refs_updateOfferingStatus (os : List Offering) (ns : Status)
    (f : Option String) (r : String) :
    (updateOfferingStatus os ns f r).map Offering.reference_number =
      os.map Offering.reference_number := by
  unfold updateOfferingStatus
  rw [List.map_map]
  apply List.map_congr_left
  intro o _
  by_cases h : o.reference_number = r <;> simp [Function.comp, h]

theorem bucket_status_count_update (l1 l2 : List Offering) (o0 : Offering)
    (ns : Status) (f2 : Option String) (d c : String) (t : Status)
    (hd : o0.created_date = d) (hc : o0.category_code = c) :
    (((bucketOfferings
        (l1 ++ { o0 with status := ns, financial_txn_id := f2 } :: l2) d c).filter
          (fun o => o.status = t)).length : Int) =
    ((bucketOfferings (l1 ++ o0 :: l2) d c).filter (fun o => o.status = t)).length
      + (if ns = t then 1 else 0) - (if o0.status = t then 1 else 0) := by
  set z : Offering := { o0 with status := ns, financial_txn_id := f2 } with hz
  unfold bucketOfferings
  rw [List.filter_filter, List.filter_filter]
  have hrel := length_filter_update l1 l2 o0 z
    (fun o => decide (o.status = t) && inBucket d c o)
  have hb0 : inBucket d c o0 = true := by simp [inBucket, hd, hc]
  have hbz : inBucket d c z = true := by simp [hz, inBucket, hd, hc]
  have hsz : z.status = ns := by rw [hz]
  simp only [hb0, hbz, hsz, Bool.and_true] at hrel
  by_cases h1 : o0.status = t <;> by_cases h2 : ns = t <;>
    simp [h1, h2] at hrel ⊢ <;> omega

theorem bucket_length_update (l1 l2 : List Offering) (o0 : Offering)
    (ns : Status) (f2 : Option String) (d c : String) :
    (bucketOfferings (l1 ++ { o0 with status := ns, financial_txn_id := f2 } :: l2)
        d c).length =
      (bucketOfferings (l1 ++ o0 :: l2) d c).length := by
  unfold bucketOfferings
  exact length_filter_update_eq l1 l2 o0 _ (inBucket d c) (by simp [inBucket])

theorem bucket_sum_update (l1 l2 : List Offering) (o0 : Offering)
    (ns : Status) (f2 : Option String) (d c : String) :
    sumAmounts (bucketOfferings
        (l1 ++ { o0 with status := ns, financial_txn_id := f2 } :: l2) d c) =
      sumAmounts (bucketOfferings (l1 ++ o0 :: l2) d c) := by
  unfold bucketOfferings
  exact sum_filter_update l1 l2 o0 _ (inBucket d c) (by simp [inBucket]) rfl

theorem bucket_update_ne (l1 l2 : List Offering) (o0 : Offering)
    (ns : Status) (f2 : Option String) (d c : String)
    (hnb : inBucket d c o0 = false) :
    bucketOfferings (l1 ++ { o0 with status := ns, financial_txn_id := f2 } :: l2) d c =
      bucketOfferings (l1 ++ o0 :: l2) d c := by
  unfold bucketOfferings
  rw [List.filter_append, List.filter_append, List.filter_cons, List.filter_cons]
  have hnb2 : inBucket d c { o0 with status := ns, financial_txn_id := f2 } = false := by
    simpa [inBucket] using hnb
  simp [hnb, hnb2]

theorem stateInv_transition (st st' : LedgerState) (ref : String) (ns : Status)
    (f : Option String) (off : Offering) (c : Bool)
    (hinv : AggConsistent st) (hnd : RefsUnique st)
    (h : updateStatusTxn st ref ns f = some (st', off, c)) :
    AggConsistent st' ∧ RefsUnique st' := by
  cases hfind : getOfferingByRef st ref with
  | none =>
    rw [updateStatusTxn_notFound st ref ns f hfind] at h
    cases h
  | some o0 =>
    by_cases hs : o0.status = ns
    · rw [updateStatusTxn_unchanged st ref ns f o0 hfind hs] at h
      simp only [Option.some.injEq, Prod.mk.injEq] at h
      obtain ⟨h1, -, -⟩ := h
      exact h1 ▸ ⟨hinv, hnd⟩
    · rw [updateStatusTxn_changed st ref ns f o0 hfind hs] at h
      simp only [Option.some.injEq, Prod.mk.injEq] at h
      obtain ⟨h1, -, -⟩ := h
      subst h1
      have ho0ref : o0.reference_number = ref := by
        have := List.find?_some hfind
        simpa using this
      obtain ⟨l1, l2, hsplit, hl1⟩ := find?_split _ st.offerings o0 hfind
      have hl1' : ∀ x ∈ l1, x.reference_number ≠ ref := by
        intro x hx
        have := hl1 x hx
        simpa using this
      have hl2 : ∀ x ∈ l2, x.reference_number ≠ ref := by
        have hnsr := nodup_split_right l1 l2 o0 (by rw [← hsplit]; exact hnd)
        intro x hx hEq
        exact hnsr x hx (hEq.trans ho0ref.symm)
      have hosmap : updateOfferingStatus st.offerings ns (orNull f) ref =
          l1 ++ { o0 with status := ns, financial_txn_id := orNull f } :: l2 := by
        rw [hsplit]
        unfold updateOfferingStatus
        rw [List.map_append, List.map_cons, if_pos ho0ref]
        have hm1 : l1.map (fun o => if o.reference_number = ref then
            { o with status := ns, financial_txn_id := orNull f } else o) = l1 := by
          rw [List.map_congr_left (fun x hx => if_neg (hl1' x hx))]
          exact List.map_id' l1
        have hm2 : l2.map (fun o => if o.reference_number = ref then
            { o with status := ns, financial_txn_id := orNull f } else o) = l2 := by
          rw [List.map_congr_left (fun x hx => if_neg (hl2 x hx))]
          exact List.map_id' l2
        rw [hm1, hm2]
      constructor
      · constructor
        · intro s' hs'mem
          have hs'mem2 : s' ∈ st.daily_summaries.map (fun s =>
              if s.summary_date = o0.created_date ∧ s.category_code = o0.category_code
              then { s with
                     success_count := s.success_count + (getStatusDelta o0.status ns).1,
                     failed_count := s.failed_count + (getStatusDelta o0.status ns).2 }
              else s) := hs'mem
          obtain ⟨s, hsmem, rfl⟩ := List.mem_map.mp hs'mem2
          have hinvs := hinv.1 s hsmem
          by_cases hkey : s.summary_date = o0.created_date ∧
              s.category_code = o0.category_code
          · rw [if_pos hkey]
            have hd : o0.created_date = s.summary_date := hkey.1.symm
            have hc2 : o0.category_code = s.category_code := hkey.2.symm
            refine ⟨?_, ?_, ?_, ?_⟩
            · show s.success_count + (getStatusDelta o0.status ns).1 =
                (((bucketOfferings (updateOfferingStatus st.offerings ns (orNull f) ref)
                  s.summary_date s.category_code).filter
                    (fun o => o.status = Status.SUCCESSFUL)).length : Int)
              rw [hosmap, bucket_status_count_update l1 l2 o0 ns (orNull f)
                s.summary_date s.category_code Status.SUCCESSFUL hd hc2,
                ← hsplit, ← hinvs.1]
              simp only [getStatusDelta]
              by_cases e1 : o0.status = Status.SUCCESSFUL <;>
                by_cases e2 : ns = Status.SUCCESSFUL <;> simp [e1, e2] <;> omega
            · show s.failed_count + (getStatusDelta o0.status ns).2 =
                (((bucketOfferings (updateOfferingStatus st.offerings ns (orNull f) ref)
                  s.summary_date s.category_code).filter
                    (fun o => o.status = Status.FAILED)).length : Int)
              rw [hosmap, bucket_status_count_update l1 l2 o0 ns (orNull f)
                s.summary_date s.category_code Status.FAILED hd hc2,
                ← hsplit, ← hinvs.2.1]
              simp only [getStatusDelta]
              by_cases e1 : o0.status = Status.FAILED <;>
                by_cases e2 : ns = Status.FAILED <;> simp [e1, e2] <;> omega
            · show s.total_count =
                (bucketOfferings (updateOfferingStatus st.offerings ns (orNull f) ref)
                  s.summary_date s.category_code).length
              rw [hosmap, bucket_length_update l1 l2 o0 ns (orNull f), ← hsplit]
              exact hinvs.2.2.1
            · show s.total_amount =
                sumAmounts (bucketOfferings
                  (updateOfferingStatus st.offerings ns (orNull f) ref)
                  s.summary_date s.category_code)
              rw [hosmap, bucket_sum_update l1 l2 o0 ns (orNull f), ← hsplit]
              exact hinvs.2.2.2
          · rw [if_neg hkey]
            have hnb : inBucket s.summary_date s.category_code o0 = false := by
              simp only [inBucket, Bool.and_eq_false_iff, decide_eq_false_iff_not]
              by_cases hd : o0.created_date = s.summary_date
              · right
                intro hcc
                exact hkey ⟨hd.symm, hcc.symm⟩
              · left
                exact hd
            have hbeq := bucket_update_ne l1 l2 o0 ns (orNull f)
              s.summary_date s.category_code hnb
            show _ ∧ _ ∧ _ ∧ _
            rw [hosmap, hbeq, ← hsplit]
            exact hinvs
        · intro d c2 hnone
          have hpres : findSummary (updateDailySummaryCounters st.daily_summaries
              (getStatusDelta o0.status ns).1 (getStatusDelta o0.status ns).2
              o0.created_date o0.category_code) d c2 =
              (findSummary st.daily_summaries d c2).map (fun s =>
                if s.summary_date = o0.created_date ∧
                    s.category_code = o0.category_code
                then { s with
                       success_count := s.success_count + (getStatusDelta o0.status ns).1,
                       failed_count := s.failed_count + (getStatusDelta o0.status ns).2 }
                else s) := by
            unfold findSummary updateDailySummaryCounters
            apply find?_map_key
            intro s
            by_cases hk : s.summary_date = o0.created_date ∧
                s.category_code = o0.category_code <;> simp [hk]
          rw [hpres] at hnone
          have h0 : findSummary st.daily_summaries d c2 = none := by
            cases hx : findSummary st.daily_summaries d c2 with
            | none => rfl
            | some v => rw [hx] at hnone; cases hnone
          have hempty := hinv.2 d c2 h0
          unfold bucketOfferings at hempty ⊢
          rw [List.filter_eq_nil_iff] at hempty ⊢
          intro x hx
          have hx2 : x ∈ st.offerings.map (fun o =>
              if o.reference_number = ref then
                { o with status := ns, financial_txn_id := orNull f } else o) := hx
          obtain ⟨y, hy, rfl⟩ := List.mem_map.mp hx2
          intro hxb
          rw [inBucket_update] at hxb
          exact hempty y hy hxb
      · show ((updateOfferingStatus st.offerings ns (orNull f) ref).map
          Offering.reference_number).Nodup
        rw [refs_updateOfferingStatus]
        exact hnd

theorem bucket_append_notin (os : List Offering) (x : Offering) (d c : String)
    (hnb : inBucket d c x = false) :
    bucketOfferings (os ++ [x]) d c = bucketOfferings os d c := by
  unfold bucketOfferings
  rw [List.filter_append, List.filter_cons]
  simp [hnb]

theorem bucket_append_in (os : List Offering) (x : Offering) (d c : String)
    (hb : inBucket d c x = true) :
    bucketOfferings (os ++ [x]) d c = bucketOfferings os d c ++ [x] := by
  unfold bucketOfferings
  rw [List.filter_append, List.filter_cons]
  simp [hb]

theorem stateInv_create (st : LedgerState) (refN momoId today cat : String)
    (a : Rat) (ph : String) (note : Option String)
    (hinv : AggConsistent st) (hnd : RefsUnique st)
    (hfresh : ∀ o ∈ st.offerings, o.reference_number ≠ refN) :
    AggConsistent (createOfferingTxn st refN momoId today cat a ph note) ∧
    RefsUnique (createOfferingTxn st refN momoId today cat a ph note) := by
  set newo : Offering :=
    { reference_number := refN, momo_reference_id := momoId, category_code := cat,
      amount := a, phone_number := ph, payer_message := orNull note,
      status := Status.PENDING, financial_txn_id := none, created_date := today }
    with hznew
  refine ⟨⟨?_, ?_⟩, ?_⟩
  · intro s' hs'mem
    have hs'mem2 : s' ∈ upsertDailySummary st.daily_summaries today cat a := hs'mem
    unfold upsertDailySummary at hs'mem2
    by_cases hany : st.daily_summaries.any
        (fun s => s.summary_date = today ∧ s.category_code = cat) = true
    · rw [if_pos hany] at hs'mem2
      obtain ⟨s, hsmem, rfl⟩ := List.mem_map.mp hs'mem2
      have hinvs := hinv.1 s hsmem
      by_cases hkey : s.summary_date = today ∧ s.category_code = cat
      · rw [if_pos hkey]
        have hb : inBucket s.summary_date s.category_code newo = true := by
          simp [hznew, inBucket, hkey.1, hkey.2]
        refine ⟨?_, ?_, ?_, ?_⟩
        · show s.success_count =
            (((bucketOfferings (st.offerings ++ [newo])
              s.summary_date s.category_code).filter
                (fun o => o.status = Status.SUCCESSFUL)).length : Int)
          rw [bucket_append_in st.offerings newo _ _ hb, List.filter_append]
          simpa [hznew] using hinvs.1
        · show s.failed_count =
            (((bucketOfferings (st.offerings ++ [newo])
              s.summary_date s.category_code).filter
                (fun o => o.status = Status.FAILED)).length : Int)
          rw [bucket_append_in st.offerings newo _ _ hb, List.filter_append]
          simpa [hznew] using hinvs.2.1
        · show s.total_count + 1 =
            (bucketOfferings (st.offerings ++ [newo])
              s.summary_date s.category_code).length
          rw [bucket_append_in st.offerings newo _ _ hb, List.length_append]
          simp [hinvs.2.2.1]
        · show s.total_amount + a =
            sumAmounts (bucketOfferings (st.offerings ++ [newo])
              s.summary_date s.category_code)
          rw [bucket_append_in st.offerings newo _ _ hb]
          simp only [sumAmounts, List.map_append, List.sum_append, List.map_cons,
            List.map_nil, List.sum_cons, List.sum_nil]
          rw [hinvs.2.2.2]
          simp [hznew, sumAmounts]
      · rw [if_neg hkey]
        have hnb : inBucket s.summary_date s.category_code newo = false := by
          simp only [hznew, inBucket, Bool.and_eq_false_iff, decide_eq_false_iff_not]
          by_cases hd : today = s.summary_date
          · right
            intro hcc
            exact hkey ⟨hd.symm, hcc.symm⟩
          · left
            exact hd
        rw [show (createOfferingTxn st refN momoId today cat a ph note).offerings =
              st.offerings ++ [newo] from rfl,
            bucket_append_notin st.offerings newo _ _ hnb]
        exact hinvs
    · rw [if_neg hany] at hs'mem2
      have hall : ∀ x ∈ st.daily_summaries,
          ¬(x.summary_date = today ∧ x.category_code = cat) := by
        intro x hx hc
        exact hany (List.any_eq_true.mpr ⟨x, hx, by simpa using hc⟩)
      rcases List.mem_append.mp hs'mem2 with hmem | hmem
      · have hinvs := hinv.1 s' hmem
        have hnb : inBucket s'.summary_date s'.category_code newo = false := by
          simp only [hznew, inBucket, Bool.and_eq_false_iff, decide_eq_false_iff_not]
          by_cases hd : today = s'.summary_date
          · right
            intro hcc
            exact hall s' hmem ⟨hd.symm, hcc.symm⟩
          · left
            exact hd
        rw [show (createOfferingTxn st refN momoId today cat a ph note).offerings =
              st.offerings ++ [newo] from rfl,
            bucket_append_notin st.offerings newo _ _ hnb]
        exact hinvs
      · have hs'eq : s' = { summary_date := today, category_code := cat,
                            total_count := 1, total_amount := a,
                            success_count := 0, failed_count := 0 } := by
          simpa using hmem
        subst hs'eq
        have h0 : findSummary st.daily_summaries today cat = none := by
          unfold findSummary
          rw [List.find?_eq_none]
          intro x hx
          simpa using hall x hx
        have hempty := hinv.2 today cat h0
        have hb : inBucket today cat newo = true := by simp [hznew, inBucket]
        rw [show (createOfferingTxn st refN momoId today cat a ph note).offerings =
              st.offerings ++ [newo] from rfl]
        dsimp only
        rw [bucket_append_in st.offerings newo today cat hb, hempty]
        refine ⟨?_, ?_, ?_, ?_⟩ <;> simp [hznew, sumAmounts]
  · intro d c2 hnone
    have hnone2 : findSummary (upsertDailySummary st.daily_summaries today cat a)
        d c2 = none := hnone
    unfold upsertDailySummary at hnone2
    by_cases hany : st.daily_summaries.any
        (fun s => s.summary_date = today ∧ s.category_code = cat) = true
    · rw [if_pos hany] at hnone2
      have hpres : findSummary (st.daily_summaries.map (fun s =>
          if s.summary_date = today ∧ s.category_code = cat then
            { s with total_count := s.total_count + 1,
                     total_amount := s.total_amount + a }
          else s)) d c2 =
          (findSummary st.daily_summaries d c2).map (fun s =>
            if s.summary_date = today ∧ s.category_code = cat then
              { s with total_count := s.total_count + 1,
                       total_amount := s.total_amount + a }
            else s) := by
        unfold findSummary
        apply find?_map_key
        intro s
        by_cases hk : s.summary_date = today ∧ s.category_code = cat <;> simp [hk]
      rw [hpres] at hnone2
      have h0 : findSummary st.daily_summaries d c2 = none := by
        cases hx : findSummary st.daily_summaries d c2 with
        | none => rfl
        | some v => rw [hx] at hnone2; cases hnone2
      have hempty := hinv.2 d c2 h0
      by_cases hb : inBucket d c2 newo = true
      · exfalso
        have hdc : today = d ∧ cat = c2 := by simpa [hznew, inBucket] using hb
        obtain ⟨rfl, rfl⟩ := hdc
        have hsome : (findSummary st.daily_summaries today cat).isSome := by
          unfold findSummary
          exact List.find?_isSome.mpr (List.any_eq_true.mp hany)
        rw [h0] at hsome
        cases hsome
      · have hb' : inBucket d c2 newo = false := by
          revert hb
          cases inBucket d c2 newo <;> simp
        show bucketOfferings (st.offerings ++ [newo]) d c2 = []
        rw [bucket_append_notin st.offerings newo _ _ hb']
        exact hempty
    · rw [if_neg hany] at hnone2
      unfold findSummary at hnone2
      rw [List.find?_append] at hnone2
      cases hx : st.daily_summaries.find?
          (fun s => s.summary_date = d ∧ s.category_code = c2) with
      | some v => rw [hx] at hnone2; cases hnone2
      | none =>
        rw [hx] at hnone2
        simp only [Option.none_or] at hnone2
        have hfr : ¬(today = d ∧ cat = c2) := by
          intro hc
          have : (List.find? (fun s => s.summary_date = d ∧ s.category_code = c2)
              [({ summary_date := today, category_code := cat, total_count := 1,
                  total_amount := a, success_count := 0,
                  failed_count := 0 } : DailySummary)]).isSome := by
            rw [List.find?_cons_of_pos _ (by simpa using hc)]
            rfl
          rw [hnone2] at this
          cases this
        have hempty := hinv.2 d c2 hx
        have hb' : inBucket d c2 newo = false := by
          simp only [hznew, inBucket, Bool.and_eq_false_iff, decide_eq_false_iff_not]
          by_cases hd : today = d
          · right
            intro hcc
            exact hfr ⟨hd, hcc⟩
          · left
            exact hd
        show bucketOfferings (st.offerings ++ [newo]) d c2 = []
        rw [bucket_append_notin st.offerings newo _ _ hb']
        exact hempty
  · show ((st.offerings ++ [newo]).map Offering.reference_number).Nodup
    rw [List.map_append, List.nodup_append]
    refine ⟨hnd, by simp, ?_⟩
    intro x hx hx2
    obtain ⟨o, ho, rfl⟩ := List.mem_map.mp hx
    have : o.reference_number = refN := by simpa [hznew] using hx2
    exact hfresh o ho this

theorem ledgerReachable_inv (st : LedgerState) (h : LedgerReachable st) :
    AggConsistent st ∧ RefsUnique st := by
  induction h with
  | init queue cats =>
    refine ⟨⟨?_, ?_⟩, ?_⟩
    · intro s hs
      exact absurd hs (List.not_mem_nil s)
    · intro d c _
      rfl
    · exact List.nodup_nil
  | step st st' hr hs ih =>
    cases hs with
    | create refN momoId today cat a ph note hfresh =>
      exact stateInv_create st refN momoId today cat a ph note ih.1 ih.2 hfresh
    | transition ref ns f st2 off c h =>
      exact stateInv_transition st st' ref ns f off c ih.1 ih.2 h

/-- C1. Aggregate consistency invariant: after any sequence of creation
and transition operations from an empty ledger, every daily bucket
`(date, category)` row satisfies `success_count` = number of its
transactions with status `SUCCESSFUL`, `failed_count` = number with
status `FAILED`, and `total_count`/`total_amount` = count and amount-sum
of all transactions ever created in the bucket regardless of status
(and bucket rows absent from `daily_summaries` have no transactions). -/
theorem aggregate_consistency (st : LedgerState) (h : LedgerReachable st) :
    AggConsistent st :=
  (ledgerReachable_inv st h).1

/-- Witness for the aggregate-consistency theorem: the ledger obtained
by creating the sample transaction and settling it `SUCCESSFUL` is
consistent. -/
theorem aggregate_consistency_witness : AggConsistent sampleStateS := by
  have h0 := LedgerReachable.init [] [("TITHE", "Tithes")]
  have h1 := LedgerReachable.step _ _ h0
    (LedgerStep.create _ "TITHE-2026-0211-001" "uuid-0001" "2026-02-11" "TITHE" 50
      "0241234567" none (by intro o ho; exact absurd ho (List.not_mem_nil o)))
  have heq1 : createOfferingTxn
      { offerings := [], daily_summaries := [],
        pending_queue := [], categories := [("TITHE", "Tithes")] }
      "TITHE-2026-0211-001" "uuid-0001" "2026-02-11" "TITHE" 50 "0241234567" none =
      sampleState := by decide
  rw [heq1] at h1
  have h2 := LedgerReachable.step _ _ h1
    (LedgerStep.transition sampleState "TITHE-2026-0211-001" Status.SUCCESSFUL
      (some "FT1") sampleStateS sampleOfferingS true (by decide))
  exact aggregate_consistency sampleStateS h2
